import Mathlib

/-!
Verification development for the `file_scanner` repository (Go).

The repository ships two variants of each application file (an older and a
newer revision concatenated in `scanner.go` / `database.go`).  Definitions
below are shallow embeddings of the Go functions; where the two variants
differ, both are embedded (`...V1` for the first variant in the file,
unsuffixed for the second).  Machine integers of the Go code are modelled as
`Nat` with explicit reduction modulo 2^32 where overflow matters.
-/

/-! ## SHA-256 (FIPS 180-4), as used by `processFile` via `crypto/sha256`

`processFile` (scanner.go, both variants) computes
`sha256.New(); hasher.Write([]byte(filePath)); hex.EncodeToString(hasher.Sum(nil))`.
The functions below embed SHA-256 over byte lists (`Nat`s below 256) and the
lowercase hex encoding performed by `encoding/hex`. -/

/-- Truncate to a 32-bit word, the width of the SHA-256 working variables. -/
def w32 (n : Nat) : Nat := n % 4294967296

/-- 32-bit wrapping addition. -/
def add32 (a b : Nat) : Nat := w32 (a + b)

/-- 32-bit right rotation. -/
def rotr32 (x n : Nat) : Nat :=
  w32 (Nat.lor (Nat.shiftRight x n) (Nat.shiftLeft x (32 - n)))

/-- Logical right shift. -/
def shr32 (x n : Nat) : Nat := Nat.shiftRight x n

/-- Three-way xor. -/
def xor3 (a b c : Nat) : Nat := Nat.xor (Nat.xor a b) c

/-- SHA-256 Σ0. -/
def bsig0 (x : Nat) : Nat := xor3 (rotr32 x 2) (rotr32 x 13) (rotr32 x 22)

/-- SHA-256 Σ1. -/
def bsig1 (x : Nat) : Nat := xor3 (rotr32 x 6) (rotr32 x 11) (rotr32 x 25)

/-- SHA-256 σ0. -/
def ssig0 (x : Nat) : Nat := xor3 (rotr32 x 7) (rotr32 x 18) (shr32 x 3)

/-- SHA-256 σ1. -/
def ssig1 (x : Nat) : Nat := xor3 (rotr32 x 17) (rotr32 x 19) (shr32 x 10)

/-- SHA-256 Ch(x,y,z) = (x ∧ y) ⊕ (¬x ∧ z) on 32-bit words. -/
def chFn (x y z : Nat) : Nat :=
  Nat.xor (Nat.land x y) (Nat.land (Nat.xor x 4294967295) z)

/-- SHA-256 Maj(x,y,z). -/
def majFn (x y z : Nat) : Nat :=
  xor3 (Nat.land x y) (Nat.land x z) (Nat.land y z)

/-- The 64 SHA-256 round constants of FIPS 180-4 (the first 32 bits of the
fractional parts of the cube roots of the first 64 primes), in decimal. -/
def sha256K : List Nat :=
  [1116352408, 1899447441, 3049323471, 3921009573,
   961987163, 1508970993, 2453635748, 2870763221,
   3624381080, 310598401, 607225278, 1426881987,
   1925078388, 2162078206, 2614888103, 3248222580,
   3835390401, 4022224774, 264347078, 604807628,
   770255983, 1249150122, 1555081692, 1996064986,
   2554220882, 2821834349, 2952996808, 3210313671,
   3336571891, 3584528711, 113926993, 338241895,
   666307205, 773529912, 1294757372, 1396182291,
   1695183700, 1986661051, 2177026350, 2456956037,
   2730485921, 2820302411, 3259730800, 3345764771,
   3516065817, 3600352804, 4094571909, 275423344,
   430227734, 506948616, 659060556, 883997877,
   958139571, 1322822218, 1537002063, 1747873779,
   1955562222, 2024104815, 2227730452, 2361852424,
   2428436474, 2756734187, 3204031479, 3329325298]

/-- The eight 32-bit words of the SHA-256 chaining state. -/
structure Hash8 where
  h0 : Nat
  h1 : Nat
  h2 : Nat
  h3 : Nat
  h4 : Nat
  h5 : Nat
  h6 : Nat
  h7 : Nat
deriving DecidableEq, Repr

/-- SHA-256 initial hash value (FIPS 180-4), in decimal. -/
def sha256H0 : Hash8 :=
  ⟨1779033703, 3144134277, 1013904242, 2773480762,
   1359893119, 2600822924, 528734635, 1541459225⟩

/-- Big-endian 8-byte encoding of the bit length, used by SHA-256 padding. -/
def be64 (n : Nat) : List Nat :=
  [n / 72057594037927936 % 256, n / 281474976710656 % 256, n / 1099511627776 % 256,
   n / 4294967296 % 256, n / 16777216 % 256, n / 65536 % 256, n / 256 % 256, n % 256]

/-- SHA-256 message padding: append 0x80, zero bytes to 56 mod 64, then the
bit length as a big-endian 64-bit integer. -/
def padMsg (ms : List Nat) : List Nat :=
  let L := ms.length
  let k := (64 + 56 - ((L + 1) % 64)) % 64
  ms ++ [128] ++ List.replicate k 0 ++ be64 (8 * L)

/-- Split a byte list into 64-byte blocks (structural recursion on a fuel
counter so that the definition reduces inside the kernel; the fuel
`bs.length` is never exhausted since every step consumes at least one byte). -/
def toBlocksAux : Nat → List Nat → List (List Nat)
  | 0, _ => []
  | _, [] => []
  | fuel + 1, bs => bs.take 64 :: toBlocksAux fuel (bs.drop 64)

/-- Split a byte list into 64-byte blocks. -/
def toBlocks (bs : List Nat) : List (List Nat) := toBlocksAux bs.length bs

/-- Big-endian conversion of bytes to 32-bit words. -/
def bytesToWords : List Nat → List Nat
  | a :: b :: c :: d :: rest => (a * 16777216 + b * 65536 + c * 256 + d) :: bytesToWords rest
  | _ => []

/-- Extend the 16-word message block to the 64-word SHA-256 message schedule,
one word per step. -/
def extendSched : Nat → List Nat → List Nat
  | 0, w => w
  | n + 1, w =>
    let t := w.length
    extendSched n (w ++ [add32 (add32 (ssig1 (w.getD (t - 2) 0)) (w.getD (t - 7) 0))
                          (add32 (ssig0 (w.getD (t - 15) 0)) (w.getD (t - 16) 0))])

/-- One SHA-256 compression round on the working variables. -/
def sha256Round (k w : Nat) (s : Hash8) : Hash8 :=
  let t1 := add32 (add32 (add32 s.h7 (bsig1 s.h4)) (add32 (chFn s.h4 s.h5 s.h6) k)) w
  let t2 := add32 (bsig0 s.h0) (majFn s.h0 s.h1 s.h2)
  ⟨add32 t1 t2, s.h0, s.h1, s.h2, add32 s.h3 t1, s.h4, s.h5, s.h6⟩

/-- SHA-256 compression function on one 64-byte block. -/
def compressBlock (h : Hash8) (block : List Nat) : Hash8 :=
  let ws := extendSched 48 (bytesToWords block)
  let s := (List.zip sha256K ws).foldl (fun st kw => sha256Round kw.1 kw.2 st) h
  ⟨add32 h.h0 s.h0, add32 h.h1 s.h1, add32 h.h2 s.h2, add32 h.h3 s.h3,
   add32 h.h4 s.h4, add32 h.h5 s.h5, add32 h.h6 s.h6, add32 h.h7 s.h7⟩

/-- Big-endian 4-byte serialization of a 32-bit word. -/
def word4 (n : Nat) : List Nat :=
  [n / 16777216 % 256, n / 65536 % 256, n / 256 % 256, n % 256]

/-- SHA-256 of a byte list: the 32-byte digest. -/
def sha256Bytes (ms : List Nat) : List Nat :=
  let hF := (toBlocks (padMsg ms)).foldl compressBlock sha256H0
  word4 hF.h0 ++ word4 hF.h1 ++ word4 hF.h2 ++ word4 hF.h3 ++
  word4 hF.h4 ++ word4 hF.h5 ++ word4 hF.h6 ++ word4 hF.h7

/-- Lowercase hex digit, as produced by Go `encoding/hex`. -/
def hexDigit (n : Nat) : Char :=
  if n < 10 then Char.ofNat (48 + n) else Char.ofNat (87 + n)

/-- Two hex characters of one byte. -/
def hexByte (b : Nat) : List Char := [hexDigit (b / 16), hexDigit (b % 16)]

/-- `hex.EncodeToString` on a byte list. -/
def hexEncode (bs : List Nat) : String := ⟨bs.flatMap hexByte⟩

/-- Hex-encoded SHA-256 digest of a byte list. -/
def sha256Hex (ms : List Nat) : String := hexEncode (sha256Bytes ms)

/-- UTF-8 encoding of one character, matching Go's `[]byte(string)` conversion. -/
def utf8Enc (c : Char) : List Nat :=
  let n := c.toNat
  if n < 128 then [n]
  else if n < 2048 then [192 + n / 64, 128 + n % 64]
  else if n < 65536 then [224 + n / 4096, 128 + n / 64 % 64, 128 + n % 64]
  else [240 + n / 262144, 128 + n / 4096 % 64, 128 + n / 64 % 64, 128 + n % 64]

/-- The byte sequence of a Go string (`[]byte(s)`, UTF-8). -/
def strBytes (s : String) : List Nat := s.data.flatMap utf8Enc

/-! ## Data model

`FileInfo` of database.go variant 2 (fields file_name, file_path, path_hash,
file_size, mod_time, other_metadata, extension) and of variant 1
(Name, Size, LastModified, ETag, PathHash, ItemPath, Extension).
Sizes and times are modelled as integers. -/

/-- The result of a successful `os.Stat` call: the fields `processFile` reads. -/
structure StatInfo where
  name : String
  size : Int
  modTime : Int
deriving DecidableEq, Repr

/-- A filesystem entry: stat information plus the file's byte contents.  The
contents field exists only to state that `processFile` never reads it. -/
structure FsEntry where
  stat : StatInfo
  contents : List Nat
deriving DecidableEq, Repr

/-- `FileInfo` of database.go variant 2. -/
structure FileInfo where
  FileName : String
  FilePath : String
  PathHash : String
  FileSize : Int
  ModTime : Int
  OtherMetadata : String
  Extension : String
deriving DecidableEq, Repr

/-- `FileInfo` of database.go variant 1. -/
structure FileInfoV1 where
  Name : String
  Size : Int
  LastModified : Int
  ETag : String
  PathHash : String
  ItemPath : String
  Extension : String
deriving DecidableEq, Repr

/-- `filepath.Ext`, scanning the reversed character list: the suffix starting
at the final dot of the final path element, empty if that element has no dot. -/
def extOfAux (acc : List Char) : List Char → String
  | [] => ""
  | c :: rest =>
    if c = '.' then ⟨'.' :: acc⟩
    else if c = '/' ∨ c = '\\' then ""
    else extOfAux (c :: acc) rest

/-- `filepath.Ext filePath`. -/
def extOf (p : String) : String := extOfAux [] p.data.reverse

/-- `processFile` (scanner.go lines 360-380, variant 2; variant 1 lines
169-188 builds the same path hash).  The `statResult` argument stands for the
outcome of `os.Stat filePath`: `none` models a stat error, in which case
`processFile` fails.  On success the record is built from the stat info and
the path alone; `PathHash` is the hex SHA-256 digest of the path string and
`OtherMetadata` is left empty exactly as in the source. -/
def processFile (filePath : String) (statResult : Option FsEntry) : Option FileInfo :=
  match statResult with
  | none => none
  | some e =>
    some ⟨e.stat.name, filePath, sha256Hex (strBytes filePath), e.stat.size,
          e.stat.modTime, "", extOf filePath⟩

/-! ## Directory Walker (scanner.go lines 115-147 / 310-339)

`filepath.WalkDir` drives a callback over a stream of visit events: a regular
entry visit, a directory visit, or a traversal error at a path.  The callback
body is embedded below; variant 1 returns the error from the callback, which
aborts the whole walk (modelled by `none`), while variant 2 returns nil and
the walk continues (`contOnErr = true`).  Cancellation and the bounded
channel are not involved in the claims about the callback and are omitted:
the runs modelled are those in which the context is never cancelled. -/

/-- One `filepath.WalkDir` callback invocation. -/
inductive WalkEvent where
  | fileEvt (path : String)
  | dirEvt (path : String)
  | errEvt (path : String)
deriving DecidableEq, Repr

/-- The walker's view of the scan state: the processed-path set
(`scanState.FilesScanned`, guarded by `scanStateLock`) and the list of paths
emitted into `fileChan`, in order. -/
structure WalkState where
  scanned : List String
  emitted : List String
deriving DecidableEq, Repr

/-- The callback body for a non-directory entry (scanner.go lines 125-131 /
320-326): under the scan-state lock, skip the path if it is already in the
processed set, otherwise mark it present and then emit it downstream. -/
def fileStep (st : WalkState) (path : String) : WalkState :=
  if path ∈ st.scanned then st
  else ⟨path :: st.scanned, st.emitted ++ [path]⟩

/-- The walk: fold the callback over the visit events.  Directory entries are
skipped.  On a traversal error, variant 2 (`contOnErr = true`) logs and
continues; variant 1 (`contOnErr = false`) returns the error, aborting the
remaining walk (result `none`, and the walker goroutine then sends the error
to `errChan`, failing the scan). -/
def walkFold (contOnErr : Bool) (st : WalkState) : List WalkEvent → Option WalkState
  | [] => some st
  | .fileEvt p :: es => walkFold contOnErr (fileStep st p) es
  | .dirEvt _ :: es => walkFold contOnErr st es
  | .errEvt _ :: es => if contOnErr then walkFold contOnErr st es else none

/-! ## Worker pool (scanner.go lines 49-80 / 254-281)

One worker's loop over the paths it receives from `fileChan`.  On a
`processFile` error, variant 1 (lines 66-74) logs, sends the error to
`errChan` (making `scanFolder` return it) and returns, terminating the
worker; variant 2 (lines 271-275) logs and continues with the next path. -/

/-- Variant 1 worker loop: returns the records forwarded to `resultChan` and
whether the worker hit an extraction error (sent to `errChan`, worker
terminated, remaining paths abandoned). -/
def workerLoopV1 (extract : String → Option FileInfo) : List String → List FileInfo × Bool
  | [] => ([], false)
  | p :: ps =>
    match extract p with
    | none => ([], true)
    | some r =>
      let rest := workerLoopV1 extract ps
      (r :: rest.1, rest.2)

/-- Variant 2 worker loop: a failed extraction is logged and skipped; the
worker forwards the records of every successfully extracted path. -/
def workerLoop (extract : String → Option FileInfo) : List String → List FileInfo
  | [] => []
  | p :: ps =>
    match extract p with
    | none => workerLoop extract ps
    | some r => r :: workerLoop extract ps

/-! ## Batch sink stage (scanner.go lines 83-112 / 284-307)

The batch-insert goroutine accumulates records from `resultChan` into
`batch`, flushes via `batchInsert` once `len(batch) >= batchSize`, and after
the stream is exhausted flushes any non-empty remainder.  On a flush error it
logs, sends the error to `errChan` and returns.  Only after a successful
flush does it add `len(batch)` to the `totalFilesWritten` counter.
`flushOk b` stands for whether the `batchInsert` call for batch `b`
succeeds. -/

/-- Outcome of the sink loop: the final value of the `totalFilesWritten`
counter, the successfully flushed batches in order, and the batch whose
flush failed, if any (after which the goroutine returns). -/
structure SinkResult where
  written : Nat
  flushes : List (List FileInfo)
  failedBatch : Option (List FileInfo)
deriving DecidableEq, Repr

/-- The sink loop, from current accumulated batch `acc` over the remaining
record stream. -/
def sinkLoop (flushOk : List FileInfo → Bool) (bSize : Nat) (acc : List FileInfo) :
    List FileInfo → SinkResult
  | [] =>
    if acc = [] then ⟨0, [], none⟩
    else if flushOk acc then ⟨acc.length, [acc], none⟩
    else ⟨0, [], some acc⟩
  | r :: rs =>
    let b := acc ++ [r]
    if bSize ≤ b.length then
      if flushOk b then
        let res := sinkLoop flushOk bSize [] rs
        ⟨b.length + res.written, b :: res.flushes, res.failedBatch⟩
      else ⟨0, [], some b⟩
    else sinkLoop flushOk bSize b rs

/-! ## `batchInsert` (database.go lines 161-214, variant 2; lines 62-95,
variant 1)

The database table is modelled as the list of its rows in insertion order;
the identity column is omitted (it is generated by the database and carries
no data from the records).

Variant 2 issues a `MERGE` joining the batch to the table
`ON target.path_hash = source.path_hash`: a matched row has every column
except `path_hash` updated from the source record; an unmatched record is
inserted.  The fold below executes that decision record by record; it
coincides with the set-based `MERGE` whenever the batch's `path_hash` keys
are pairwise distinct (SQL Server rejects a `MERGE` in which two source rows
hit the same target row, and the table's `UNIQUE` constraint on `path_hash`
keeps the table keys distinct).

Variant 1 issues a MySQL-style `INSERT ... ON DUPLICATE KEY UPDATE` against
the variant-1 schema, whose only key is the auto-increment identity column
`Id` (`PathHash` carries no UNIQUE constraint there).  A `VALUES` insert
never collides on a freshly generated identity value, so the
`ON DUPLICATE KEY UPDATE` clause never applies and the statement degenerates
to a plain append of every record — and under the repository's actual
`sqlserver` driver the MySQL syntax is not valid at all, so no upsert keyed
on `PathHash` happens on any reading. -/

/-- The column updates of variant 2's `WHEN MATCHED THEN UPDATE`: every
column except `path_hash` is taken from the source record. -/
def mergeUpdate (target source : FileInfo) : FileInfo :=
  ⟨source.FileName, source.FilePath, target.PathHash, source.FileSize,
   source.ModTime, source.OtherMetadata, source.Extension⟩

/-- One record of variant 2's `MERGE`: update the matching row if one exists,
insert otherwise. -/
def upsertOne (table : List FileInfo) (f : FileInfo) : List FileInfo :=
  if table.any (fun r => r.PathHash == f.PathHash) then
    table.map (fun r => if r.PathHash == f.PathHash then mergeUpdate r f else r)
  else table ++ [f]

/-- Variant 2 `batchInsert`: the `MERGE` applied to the whole batch. -/
def batchInsert (table : List FileInfo) (files : List FileInfo) : List FileInfo :=
  files.foldl upsertOne table

/-- Variant 1 `batchInsert`: the `ON DUPLICATE KEY UPDATE` clause never fires
(see the section comment), so every record is appended. -/
def batchInsertV1 (table : List FileInfoV1) (files : List FileInfoV1) : List FileInfoV1 :=
  table ++ files

/-! ## Scan-state persistence around a scan (database.go lines 480-511 /
898-928)

After `scanFolder` returns — whether with `nil` (completed), with
`context.Canceled` (the user pressed Stop) or with a fatal pipeline error —
the launching goroutine in `main` runs the same epilogue: `saveScanState()`
and then, unconditionally, `deleteScanState()`.  The scan outcome affects
only the log message and status label. -/

/-- How a scan ended. -/
inductive ScanOutcome where
  | completed
  | cancelled
  | failed
deriving DecidableEq, Repr

/-- The persisted `ScanState` blob (`scan_state.gob`). -/
structure ScanStateRec where
  folderPath : String
  filesScanned : List String
deriving DecidableEq, Repr

/-- An operation of the epilogue on the scan-state file. -/
inductive StateFileOp where
  | save
  | delete
deriving DecidableEq, Repr

/-- The epilogue `main` runs after `scanFolder` returns: save, then delete.
The outcome argument is unused because the source performs the same two
calls on every path through the epilogue. -/
def postScanOps (_outcome : ScanOutcome) : List StateFileOp := [.save, .delete]

/-- Effect of one epilogue operation on the persisted scan-state file
(`snapshot` is the in-memory `scanState` that `saveScanState` writes). -/
def applyStateOp (snapshot : ScanStateRec) (_cur : Option ScanStateRec) :
    StateFileOp → Option ScanStateRec
  | .save => some snapshot
  | .delete => none

/-- The persisted scan-state file after the epilogue, given the outcome, the
in-memory state and the file's prior contents. -/
def scanStateAfter (outcome : ScanOutcome) (snapshot : ScanStateRec)
    (cur : Option ScanStateRec) : Option ScanStateRec :=
  (postScanOps outcome).foldl (applyStateOp snapshot) cur

/-! ## Goroutine structure of `scanFolder` (scanner.go lines 237-358,
variant 2)

A small-step model of the goroutines of one `scanFolder` call and of the
channels connecting them, for runs in which the context is never cancelled,
every extraction and every flush succeeds, and every path is unseen (the
scan-state dedup is modelled separately by `walkFold`).  Records are
identified by their path.  The worker pool is represented by one worker: the
events at issue (the closes of `resultChan` and the final `select`) do not
depend on the pool size, and the waiter goroutine's `wg.Wait()` is the
condition `workersDone`.

The modelled goroutines:
- walker (lines 310-339): emits each path into `fileChan`, then
  `defer close(fileChan)`;
- worker (lines 254-281): receives a path, extracts, forwards the record to
  `resultChan`; exits when `fileChan` is closed and drained;
- waiter (lines 341-344): after `wg.Wait()`, `close(resultChan)`;
- sink (lines 284-307): `defer close(resultChan)`; ranges over `resultChan`,
  batching and flushing; when the range ends (channel closed and drained) it
  flushes the remainder and its deferred `close(resultChan)` runs;
- the tail of `scanFolder` itself (lines 346-357): a `select` whose
  `case <-resultChan` fires on a received record or on the closed channel,
  after which `scanFolder` returns `nil`.

In Go, `close` of an already-closed channel panics; `closeResult` records
this in `panicked`. -/

/-- The shared state of one `scanFolder` call. -/
structure PipeState where
  walkerTodo : List String
  fileChan : List String
  fileChanClosed : Bool
  resultChan : List String
  resultCloseCount : Nat
  workersDone : Bool
  waiterDone : Bool
  sinkBatch : List String
  sinkFlushed : List (List String)
  sinkDone : Bool
  mainReturned : Bool
  mainStole : Option String
  panicked : Bool
deriving DecidableEq, Repr

/-- The goroutines of `scanFolder`. -/
inductive Tid where
  | walker
  | worker
  | waiter
  | sink
  | mainSel
deriving DecidableEq, Repr

/-- `close(resultChan)`: panics if the channel is already closed. -/
def closeResult (s : PipeState) : PipeState :=
  if s.resultCloseCount = 0 then { s with resultCloseCount := 1 }
  else { s with resultCloseCount := s.resultCloseCount + 1, panicked := true }

/-- The `batchSize` constant of variant 2 (scanner.go line 233). -/
def batchSizeV2 : Nat := 100

/-- One step of the walker goroutine. -/
def stepWalker (s : PipeState) : PipeState :=
  match s.walkerTodo with
  | p :: ps => { s with walkerTodo := ps, fileChan := s.fileChan ++ [p] }
  | [] => if s.fileChanClosed then s else { s with fileChanClosed := true }

/-- One step of the worker: take a path from `fileChan`, extract and forward
the record; when `fileChan` is closed and drained, the range loop ends and
the worker's `wg.Done()` runs. -/
def stepWorker (s : PipeState) : PipeState :=
  match s.fileChan with
  | p :: ps => { s with fileChan := ps, resultChan := s.resultChan ++ [p] }
  | [] =>
    if s.fileChanClosed then
      if s.workersDone then s else { s with workersDone := true }
    else s

/-- One step of the waiter goroutine: once `wg.Wait()` returns it closes
`resultChan`. -/
def stepWaiter (s : PipeState) : PipeState :=
  if s.workersDone then
    if s.waiterDone then s else closeResult { s with waiterDone := true }
  else s

/-- One step of the sink goroutine: receive and batch a record, flushing at
the threshold; when the channel is closed and drained, flush the remainder
and run the deferred `close(resultChan)`. -/
def stepSink (s : PipeState) : PipeState :=
  if s.sinkDone then s
  else
    match s.resultChan with
    | r :: rs =>
      let b := s.sinkBatch ++ [r]
      if batchSizeV2 ≤ b.length then
        { s with resultChan := rs, sinkBatch := [], sinkFlushed := s.sinkFlushed ++ [b] }
      else { s with resultChan := rs, sinkBatch := b }
    | [] =>
      if 0 < s.resultCloseCount then
        let s2 :=
          if s.sinkBatch = [] then s
          else { s with sinkFlushed := s.sinkFlushed ++ [s.sinkBatch], sinkBatch := [] }
        closeResult { s2 with sinkDone := true }
      else s

/-- One step of the tail of `scanFolder` (variant 2, lines 346-357): with no
cancellation and nothing on `errChan`, the pending `case <-resultChan` fires
either by receiving a record (which is thereby consumed away from the sink)
or by observing the closed channel; either way `scanFolder` then returns
`nil`. -/
def stepMainSel (s : PipeState) : PipeState :=
  if s.mainReturned then s
  else
    match s.resultChan with
    | r :: rs => { s with resultChan := rs, mainReturned := true, mainStole := some r }
    | [] => if 0 < s.resultCloseCount then { s with mainReturned := true } else s

/-- Dispatch one step of the chosen goroutine. -/
def pipeStep (s : PipeState) : Tid → PipeState
  | .walker => stepWalker s
  | .worker => stepWorker s
  | .waiter => stepWaiter s
  | .sink => stepSink s
  | .mainSel => stepMainSel s

/-- Run a schedule: an interleaving of goroutine steps. -/
def pipeRun (s : PipeState) (sched : List Tid) : PipeState :=
  sched.foldl pipeStep s

/-- The state at the start of `scanFolder`, with the given paths to walk. -/
def pipeInit (paths : List String) : PipeState :=
  ⟨paths, [], false, [], 0, false, false, [], [], false, false, none, false⟩

set_option maxRecDepth 100000

/-! ## Helper lemmas -/

/-- The SHA-256 digest always has 32 bytes. -/
theorem sha256Bytes_length (ms : List Nat) : (sha256Bytes ms).length = 32 := by
  simp [sha256Bytes, word4]

/-- Hex encoding yields two characters per byte. -/
theorem hexEncode_length (bs : List Nat) : (hexEncode bs).length = 2 * bs.length := by
  have : ∀ l : List Nat, (l.flatMap hexByte).length = 2 * l.length := by
    intro l
    induction l with
    | nil => simp
    | cons b t ih => simp [hexByte, ih]; omega
  simpa [hexEncode, String.length] using this bs

/-- The hex SHA-256 digest always has 64 characters. -/
theorem sha256Hex_length (ms : List Nat) : (sha256Hex ms).length = 64 := by
  simp [sha256Hex, hexEncode_length, sha256Bytes_length]

/-- A successful walk extends the processed set monotonically, and the newly
emitted paths are exactly an appended suffix none of whose members was in the
initial processed set, each of which ends up in the final processed set. -/
theorem walkFold_delta (flag : Bool) (es : List WalkEvent) :
    ∀ s0 s1 : WalkState, walkFold flag s0 es = some s1 →
      (∀ p, p ∈ s0.scanned → p ∈ s1.scanned) ∧
      ∃ d, s1.emitted = s0.emitted ++ d ∧ ∀ p ∈ d, p ∉ s0.scanned ∧ p ∈ s1.scanned := by
  induction es with
  | nil =>
    intro s0 s1 h
    cases h
    exact ⟨fun p hp => hp, [], by simp, by simp⟩
  | cons e es ih =>
    intro s0 s1 h
    cases e with
    | fileEvt p =>
      by_cases hp : p ∈ s0.scanned
      · have hst : fileStep s0 p = s0 := by simp [fileStep, hp]
        rw [walkFold, hst] at h
        exact ih s0 s1 h
      · have hst : fileStep s0 p = ⟨p :: s0.scanned, s0.emitted ++ [p]⟩ := by
          simp [fileStep, hp]
        rw [walkFold, hst] at h
        obtain ⟨mono, d, hd, hdp⟩ := ih _ s1 h
        refine ⟨fun q hq => mono q (List.mem_cons_of_mem _ hq), p :: d, ?_, ?_⟩
        · simpa [List.append_assoc] using hd
        · intro q hq
          rcases List.mem_cons.mp hq with rfl | hq
          · exact ⟨hp, mono q (List.mem_cons_self _ _)⟩
          · obtain ⟨hq1, hq2⟩ := hdp q hq
            exact ⟨fun hmem => hq1 (List.mem_cons_of_mem _ hmem), hq2⟩
    | dirEvt p =>
      rw [walkFold] at h
      exact ih s0 s1 h
    | errEvt p =>
      cases flag with
      | false => simp [walkFold] at h
      | true =>
        rw [walkFold] at h
        exact ih s0 s1 (by simpa using h)

/-- A successful walk preserves the invariant that every emitted path is in
the processed set and that no path has been emitted twice. -/
theorem walkFold_nodup (flag : Bool) (es : List WalkEvent) :
    ∀ s0 s1 : WalkState, walkFold flag s0 es = some s1 →
      (∀ p ∈ s0.emitted, p ∈ s0.scanned) → s0.emitted.Nodup →
      (∀ p ∈ s1.emitted, p ∈ s1.scanned) ∧ s1.emitted.Nodup := by
  induction es with
  | nil =>
    intro s0 s1 h hsub hnd
    cases h
    exact ⟨hsub, hnd⟩
  | cons e es ih =>
    intro s0 s1 h hsub hnd
    cases e with
    | fileEvt p =>
      by_cases hp : p ∈ s0.scanned
      · have hst : fileStep s0 p = s0 := by simp [fileStep, hp]
        rw [walkFold, hst] at h
        exact ih s0 s1 h hsub hnd
      · have hst : fileStep s0 p = ⟨p :: s0.scanned, s0.emitted ++ [p]⟩ := by
          simp [fileStep, hp]
        rw [walkFold, hst] at h
        refine ih _ s1 h ?_ ?_
        · intro q hq
          rcases List.mem_append.mp hq with hq | hq
          · exact List.mem_cons_of_mem _ (hsub q hq)
          · simp only [List.mem_singleton] at hq
            subst hq
            exact List.mem_cons_self _ _
        · refine List.Nodup.append hnd (List.nodup_singleton p) ?_
          intro q hq hq'
          simp only [List.mem_singleton] at hq'
          subst hq'
          exact hp (hsub q hq)
    | dirEvt p =>
      rw [walkFold] at h
      exact ih s0 s1 h hsub hnd
    | errEvt p =>
      cases flag with
      | false => simp [walkFold] at h
      | true =>
        rw [walkFold] at h
        exact ih s0 s1 (by simpa using h) hsub hnd

/-! ## Claim theorems -/

/-- Claim C1: for every regular file path encountered by the Walker, a path
already in the processed-path set is never emitted downstream, and an absent
path is marked present before being emitted, so no path is ever emitted twice
and, on a walk resumed from the resulting state over the same root, no
previously processed path is emitted again.  `flag` ranges over both source
variants (their dedup logic at scanner.go lines 125-131 and 320-326 is
identical). -/
theorem walker_never_reemits (flag : Bool) (es : List WalkEvent) (s0 s1 : WalkState)
    (h : walkFold flag s0 es = some s1)
    (hsub : ∀ p ∈ s0.emitted, p ∈ s0.scanned) (hnd : s0.emitted.Nodup) :
    (∀ p ∈ s0.scanned, p ∈ s1.emitted → p ∈ s0.emitted) ∧
    (∀ p ∈ s1.emitted, p ∈ s1.scanned) ∧
    s1.emitted.Nodup ∧
    (∀ s2, walkFold flag s1 es = some s2 → ∀ p ∈ s2.emitted, p ∉ s1.emitted → p ∉ s1.scanned) := by
  obtain ⟨mono, d, hd, hdp⟩ := walkFold_delta flag es s0 s1 h
  obtain ⟨hsub1, hnd1⟩ := walkFold_nodup flag es s0 s1 h hsub hnd
  refine ⟨?_, hsub1, hnd1, ?_⟩
  · intro p hps hpe
    rw [hd] at hpe
    rcases List.mem_append.mp hpe with hpe | hpe
    · exact hpe
    · exact absurd hps (hdp p hpe).1
  · intro s2 h2 p hp2 hp1
    obtain ⟨_, d2, hd2, hdp2⟩ := walkFold_delta flag es s1 s2 h2
    rw [hd2] at hp2
    rcases List.mem_append.mp hp2 with hp2 | hp2
    · exact absurd hp2 hp1
    · exact (hdp2 p hp2).1

/-- Walk events for the C1 witness: one path already processed before the
walk, one fresh path visited twice, one directory. -/
def wEvents : List WalkEvent :=
  [.fileEvt "/r/old.txt", .fileEvt "/r/new.txt", .dirEvt "/r/sub", .fileEvt "/r/new.txt"]

/-- Initial walk state for the C1 witness: `/r/old.txt` was processed by an
earlier stopped scan. -/
def w0 : WalkState := ⟨["/r/old.txt"], ["/r/old.txt"]⟩

/-- Final walk state of the C1 witness run. -/
def w1 : WalkState := ⟨["/r/new.txt", "/r/old.txt"], ["/r/old.txt", "/r/new.txt"]⟩

/-- Witness for C1, at a concrete resumed walk. -/
theorem walker_never_reemits_w :
    (walkFold true w0 wEvents = some w1 ∧ (∀ p ∈ w0.emitted, p ∈ w0.scanned) ∧
      w0.emitted.Nodup) ∧
    ((∀ p ∈ w0.scanned, p ∈ w1.emitted → p ∈ w0.emitted) ∧
      (∀ p ∈ w1.emitted, p ∈ w1.scanned) ∧
      w1.emitted.Nodup ∧
      (∀ s2, walkFold true w1 wEvents = some s2 →
        ∀ p ∈ s2.emitted, p ∉ w1.emitted → p ∉ w1.scanned)) :=
  ⟨⟨by decide, by decide, by decide⟩,
   walker_never_reemits true wEvents w0 w1 (by decide) (by decide) (by decide)⟩

/-- Claim C2: `processFile` derives the content identifier as the 64-character
hex SHA-256 digest of the path string, a deterministic function of the path
alone, never of the file's byte contents (changing the contents while the
stat info is unchanged changes nothing in the record). -/
theorem processFile_hashes_path_only (filePath : String) (e : FsEntry) (r : FileInfo)
    (h : processFile filePath (some e) = some r) :
    r.PathHash = sha256Hex (strBytes filePath) ∧
    r.PathHash.length = 64 ∧
    ∀ c : List Nat, processFile filePath (some ⟨e.stat, c⟩) = some r := by
  simp only [processFile] at h
  have hr := (Option.some.inj h).symm
  subst hr
  exact ⟨rfl, sha256Hex_length _, fun c => rfl⟩

/-- Filesystem entry for the C2 witness. -/
def c2Entry : FsEntry := ⟨⟨"a.txt", 5, 100⟩, [1, 2, 3]⟩

/-- The record `processFile` builds for `/tmp/a.txt` in the C2 witness; its
`PathHash` is the SHA-256 digest of the path string. -/
def c2Rec : FileInfo :=
  ⟨"a.txt", "/tmp/a.txt", "bdb93d1f15ddf44eca5a6dd305e5de80ce83ea4b3b5e78a6f082cfa07174310d",
   5, 100, "", ".txt"⟩

/-- Witness for C2, at a concrete path and filesystem entry. -/
theorem processFile_hashes_path_only_w :
    processFile "/tmp/a.txt" (some c2Entry) = some c2Rec ∧
    (c2Rec.PathHash = sha256Hex (strBytes "/tmp/a.txt") ∧
      c2Rec.PathHash.length = 64 ∧
      ∀ c : List Nat, processFile "/tmp/a.txt" (some ⟨c2Entry.stat, c⟩) = some c2Rec) :=
  ⟨by decide, processFile_hashes_path_only "/tmp/a.txt" c2Entry c2Rec (by decide)⟩

/-- A concrete row for the C3 failing input (variant-1 field layout). -/
def rowV1Ex : FileInfoV1 := ⟨"a.txt", 5, 100, "", "hash-a", "/r/a.txt", ".txt"⟩

/-- The same logical record in the variant-2 field layout. -/
def rowV2Ex : FileInfo := ⟨"a.txt", "/r/a.txt", "hash-a", 5, 100, "", ".txt"⟩

/-- Claim C3, failing input: delivering the same one-record batch twice to a
fresh table.  Variant 1's `batchInsert` (database.go lines 62-95) leaves two
rows with the same content identifier — it is not an upsert keyed on
`PathHash` — while variant 2's `MERGE` (lines 161-214) converges to a single
row as the claim states. -/
theorem batchInsertV1_not_upsert :
    batchInsertV1 (batchInsertV1 [] [rowV1Ex]) [rowV1Ex] = [rowV1Ex, rowV1Ex] ∧
    (batchInsertV1 (batchInsertV1 [] [rowV1Ex]) [rowV1Ex]).map FileInfoV1.PathHash =
      ["hash-a", "hash-a"] ∧
    batchInsert (batchInsert [] [rowV2Ex]) [rowV2Ex] = [rowV2Ex] := by decide

/-- The metadata record the C4/C5 examples use for a path that stats fine. -/
def recEx (p : String) : FileInfo := ⟨p, p, "", 0, 0, "", ""⟩

/-- Extraction outcomes for the C4 failing input: `os.Stat` fails for
`/r/bad.txt` and succeeds elsewhere. -/
def extractEx (p : String) : Option FileInfo :=
  if p = "/r/bad.txt" then none else some (recEx p)

/-- Claim C4, failing input: a worker stream in which the middle path fails
extraction.  The variant-1 worker (scanner.go lines 66-74) forwards only the
record before the failure, sends the error to `errChan` (the `true` flag;
`scanFolder`'s select then returns that error, a pipeline-fatal outcome) and
terminates without processing `/r/c.txt`; the variant-2 worker (lines
271-275) skips the failed path and continues, as the claim requires. -/
theorem workerV1_escalates_perfile_error :
    workerLoopV1 extractEx ["/r/a.txt", "/r/bad.txt", "/r/c.txt"] =
      ([recEx "/r/a.txt"], true) ∧
    workerLoop extractEx ["/r/a.txt", "/r/bad.txt", "/r/c.txt"] =
      [recEx "/r/a.txt", recEx "/r/c.txt"] := by decide

/-- Walk events for the C5 failing input: the root directory, a traversal
error at an unreadable subdirectory, then a readable file after it. -/
def c5Events : List WalkEvent :=
  [.dirEvt "/r", .errEvt "/r/locked", .fileEvt "/r/b.txt"]

/-- Claim C5, failing input: one unreadable subtree followed by a readable
file.  The variant-1 callback (scanner.go lines 117-121) returns the error,
aborting the whole walk (`none`; the walker goroutine then sends the error to
`errChan`, surfacing it as a pipeline failure) and never emitting
`/r/b.txt`; the variant-2 callback (lines 312-316) logs, continues past the
subtree and emits the remaining file, as the claim requires. -/
theorem walkerV1_aborts_whole_walk :
    walkFold false ⟨[], []⟩ c5Events = none ∧
    walkFold true ⟨[], []⟩ c5Events = some ⟨["/r/b.txt"], ["/r/b.txt"]⟩ := by decide

/-- Claim C6, failing input: the epilogue `main` runs after `scanFolder`
returns (database.go lines 496-510 and 913-927) saves and then
unconditionally deletes the persisted `ScanState`, so after a Stop
(cancelled) or a fatal error the persisted state is gone — the claim's
"still exists so a subsequent Start can resume" fails.  (On natural
completion the deletion matches the claim.) -/
theorem scanState_deleted_after_stop_and_fail :
    scanStateAfter .cancelled ⟨"/r", ["/r/a.txt"]⟩ (some ⟨"/r", []⟩) = none ∧
    scanStateAfter .failed ⟨"/r", ["/r/a.txt"]⟩ (some ⟨"/r", []⟩) = none ∧
    scanStateAfter .completed ⟨"/r", ["/r/a.txt"]⟩ (some ⟨"/r", []⟩) = none := by decide

/-- Unfolding of one sink-loop step. -/
theorem sinkLoop_cons (flushOk : List FileInfo → Bool) (bSize : Nat)
    (acc : List FileInfo) (r : FileInfo) (rs : List FileInfo) :
    sinkLoop flushOk bSize acc (r :: rs) =
      if bSize ≤ acc.length + 1 then
        if flushOk (acc ++ [r]) = true then
          ⟨acc.length + 1 + (sinkLoop flushOk bSize [] rs).written,
           (acc ++ [r]) :: (sinkLoop flushOk bSize [] rs).flushes,
           (sinkLoop flushOk bSize [] rs).failedBatch⟩
        else ⟨0, [], some (acc ++ [r])⟩
      else sinkLoop flushOk bSize (acc ++ [r]) rs := by
  simp [sinkLoop]

/-- Claim C7: across every record stream, batch size and flush behaviour, the
"files written" counter ends exactly equal to the total size of the
successfully flushed batches: every counted batch had a successful
`batchInsert` call, and a batch whose flush failed is never counted. -/
theorem filesWritten_only_after_flush (flushOk : List FileInfo → Bool) (bSize : Nat) :
    ∀ rs acc : List FileInfo,
      (sinkLoop flushOk bSize acc rs).written =
        ((sinkLoop flushOk bSize acc rs).flushes.map List.length).sum ∧
      (∀ b ∈ (sinkLoop flushOk bSize acc rs).flushes, flushOk b = true) ∧
      (∀ b, (sinkLoop flushOk bSize acc rs).failedBatch = some b → flushOk b = false) := by
  intro rs
  induction rs with
  | nil =>
    intro acc
    by_cases h0 : acc = []
    · simp [sinkLoop, h0]
    · by_cases h1 : flushOk acc = true
      · simp [sinkLoop, h0, h1]
      · refine ⟨by simp [sinkLoop, h0, h1], by simp [sinkLoop, h0, h1], ?_⟩
        intro b hb
        simp only [sinkLoop, if_neg h0, if_neg h1, Option.some.injEq] at hb
        rw [← hb]
        exact Bool.not_eq_true _ ▸ Bool.eq_false_iff.mpr h1
  | cons r rs ih =>
    intro acc
    by_cases hlen : bSize ≤ acc.length + 1
    · by_cases hok : flushOk (acc ++ [r]) = true
      · obtain ⟨ihw, ihm, ihf⟩ := ih []
        rw [sinkLoop_cons, if_pos hlen, if_pos hok]
        refine ⟨?_, ?_, ?_⟩
        · simpa using ihw
        · intro b hb
          rcases List.mem_cons.mp hb with rfl | hb
          · exact hok
          · exact ihm b hb
        · intro b hb
          exact ihf b hb
      · rw [sinkLoop_cons, if_pos hlen, if_neg hok]
        refine ⟨by simp, by simp, ?_⟩
        intro b hb
        rw [← Option.some.inj hb]
        exact Bool.eq_false_iff.mpr hok
    · rw [sinkLoop_cons, if_neg hlen]
      exact ih (acc ++ [r])

/-- A record stream on which one flush fails, for the C7 witness. -/
def sinkRecEx (n : Nat) : FileInfo := ⟨toString n, toString n, toString n, 0, 0, "", ""⟩

/-- Five records for the sink witnesses. -/
def recsEx : List FileInfo :=
  [sinkRecEx 0, sinkRecEx 1, sinkRecEx 2, sinkRecEx 3, sinkRecEx 4]

/-- A flush oracle that fails exactly on the batch `[sinkRecEx 2, sinkRecEx 3]`. -/
def flushOkEx : List FileInfo → Bool :=
  fun b => !(b == [sinkRecEx 2, sinkRecEx 3])

/-- Witness for C7: with batch size 2 over five records, the first batch
flushes (counter 2) and the second batch's flush fails, after which the
counter still counts only the flushed batch. -/
theorem filesWritten_only_after_flush_w :
    (sinkLoop flushOkEx 2 [] recsEx).written = 2 ∧
    ((sinkLoop flushOkEx 2 [] recsEx).written =
        ((sinkLoop flushOkEx 2 [] recsEx).flushes.map List.length).sum ∧
      (∀ b ∈ (sinkLoop flushOkEx 2 [] recsEx).flushes, flushOkEx b = true) ∧
      (∀ b, (sinkLoop flushOkEx 2 [] recsEx).failedBatch = some b → flushOkEx b = false)) :=
  ⟨by decide, filesWritten_only_after_flush flushOkEx 2 recsEx []⟩

/-- When every flush succeeds, the sink loop run from an under-threshold
accumulated batch flushes everything. -/
theorem sink_all_ok_aux (flushOk : List FileInfo → Bool) (bSize : Nat)
    (hok : ∀ b, flushOk b = true) :
    ∀ rs acc : List FileInfo, acc.length < bSize →
      (sinkLoop flushOk bSize acc rs).failedBatch = none ∧
      (sinkLoop flushOk bSize acc rs).flushes.flatten = acc ++ rs ∧
      (∀ b ∈ (sinkLoop flushOk bSize acc rs).flushes, b ≠ [] ∧ b.length ≤ bSize) ∧
      (∀ b ∈ (sinkLoop flushOk bSize acc rs).flushes.dropLast, b.length = bSize) := by
  intro rs
  induction rs with
  | nil =>
    intro acc hacc
    by_cases h0 : acc = []
    · simp [sinkLoop, h0]
    · simp only [sinkLoop, if_neg h0, if_pos (hok acc)]
      refine ⟨by simp, by simp, ?_, by simp⟩
      intro b hb
      have hb' := List.mem_singleton.mp hb
      subst hb'
      exact ⟨h0, Nat.le_of_lt hacc⟩
  | cons r rs ih =>
    intro acc hacc
    by_cases hth : bSize ≤ acc.length + 1
    · have hbs : acc.length + 1 = bSize := Nat.le_antisymm hacc hth
      rw [sinkLoop_cons, if_pos hth, if_pos (hok (acc ++ [r]))]
      have hpos : ([] : List FileInfo).length < bSize :=
        Nat.lt_of_le_of_lt (Nat.zero_le _) hacc
      obtain ⟨ihf, ihj, ihm, ihd⟩ := ih [] hpos
      refine ⟨ihf, ?_, ?_, ?_⟩
      · simp only [List.flatten_cons, ihj, List.nil_append, List.append_assoc,
          List.singleton_append]
      · intro b hb
        rcases List.mem_cons.mp hb with rfl | hb
        · exact ⟨by simp, by simp [hbs]⟩
        · exact ihm b hb
      · intro b hb
        cases hfl : (sinkLoop flushOk bSize [] rs).flushes with
        | nil =>
          rw [hfl] at hb
          simp at hb
        | cons x xs =>
          rw [hfl, List.dropLast_cons₂] at hb
          rcases List.mem_cons.mp hb with rfl | hb
          · simp [hbs]
          · exact ihd b (by rw [hfl]; exact hb)
    · rw [sinkLoop_cons, if_neg hth]
      have hlt : (acc ++ [r]).length < bSize := by
        have := Nat.lt_of_not_le hth
        simpa using this
      simpa [List.append_assoc] using ih (acc ++ [r]) hlt

/-- Claim C8: when every flush succeeds, the sink flushes exactly at the
size threshold (every non-final batch has exactly the configured size) or at
stream exhaustion (a final non-empty partial batch), and the flushed batches
partition the whole record stream: no accumulated record is dropped without
a flush attempt. -/
theorem sink_flushes_threshold_and_final (flushOk : List FileInfo → Bool) (bSize : Nat)
    (hpos : 0 < bSize) (hok : ∀ b, flushOk b = true) (rs : List FileInfo) :
    (sinkLoop flushOk bSize [] rs).failedBatch = none ∧
    (sinkLoop flushOk bSize [] rs).flushes.flatten = rs ∧
    (∀ b ∈ (sinkLoop flushOk bSize [] rs).flushes, b ≠ [] ∧ b.length ≤ bSize) ∧
    (∀ b ∈ (sinkLoop flushOk bSize [] rs).flushes.dropLast, b.length = bSize) := by
  have h := sink_all_ok_aux flushOk bSize hok rs [] (by simpa using hpos)
  simpa using h

/-- A flush oracle that always succeeds, for the C8 witness. -/
def flushAlways : List FileInfo → Bool := fun _ => true

/-- Witness for C8: batch size 2 over five records gives two full batches
and one final partial batch. -/
theorem sink_flushes_threshold_and_final_w :
    (0 < 2 ∧ ∀ b : List FileInfo, flushAlways b = true) ∧
    ((sinkLoop flushAlways 2 [] recsEx).failedBatch = none ∧
      (sinkLoop flushAlways 2 [] recsEx).flushes.flatten = recsEx ∧
      (∀ b ∈ (sinkLoop flushAlways 2 [] recsEx).flushes, b ≠ [] ∧ b.length ≤ 2) ∧
      (∀ b ∈ (sinkLoop flushAlways 2 [] recsEx).flushes.dropLast, b.length = 2)) :=
  ⟨⟨by decide, fun b => rfl⟩,
   sink_flushes_threshold_and_final flushAlways 2 (by decide) (fun b => rfl) recsEx⟩

/-- Claim C9, failing input: a scan of an empty folder running to natural
completion (walker exhausts and closes `fileChan`, the workers drain and
finish, the waiter's `close(resultChan)` runs, `scanFolder`'s select observes
the closed channel and returns nil, and the sink's range loop ends).  The
sink goroutine's deferred `close(resultChan)` then closes the channel a
second time — both closes execute and the second one panics (close of a
closed channel), refuting the claim that they never both execute. -/
theorem resultChan_double_close :
    (pipeRun (pipeInit []) [.walker, .worker, .waiter, .mainSel, .sink]).resultCloseCount = 2 ∧
    (pipeRun (pipeInit []) [.walker, .worker, .waiter, .mainSel, .sink]).panicked = true ∧
    (pipeRun (pipeInit []) [.walker, .worker, .waiter, .mainSel, .sink]).waiterDone = true ∧
    (pipeRun (pipeInit []) [.walker, .worker, .waiter, .mainSel, .sink]).sinkDone = true ∧
    (pipeRun (pipeInit []) [.walker, .worker, .waiter, .mainSel, .sink]).mainReturned = true := by
  decide

/-- Claim C10, failing input: a scan of one file in which the worker forwards
the record while `scanFolder`'s final select is pending.  The select's
`case <-resultChan` (scanner.go line 353) receives the record — a consumer
other than the batch-sink stage — and `scanFolder` returns nil at once; the
pipeline then drains and the stolen record is never passed to `batchInsert`
(no batch is ever flushed). -/
theorem scanFolder_select_steals_record :
    (pipeRun (pipeInit ["/r/a.txt"])
        [.walker, .worker, .mainSel, .walker, .worker, .waiter, .sink]).mainReturned = true ∧
    (pipeRun (pipeInit ["/r/a.txt"])
        [.walker, .worker, .mainSel, .walker, .worker, .waiter, .sink]).mainStole =
      some "/r/a.txt" ∧
    (pipeRun (pipeInit ["/r/a.txt"])
        [.walker, .worker, .mainSel, .walker, .worker, .waiter, .sink]).sinkFlushed = [] ∧
    (pipeRun (pipeInit ["/r/a.txt"])
        [.walker, .worker, .mainSel, .walker, .worker, .waiter, .sink]).sinkBatch = [] ∧
    (pipeRun (pipeInit ["/r/a.txt"])
        [.walker, .worker, .mainSel, .walker, .worker, .waiter, .sink]).resultChan = [] := by
  decide
